import Mathlib

/-!
Verification of the Pyrrha-Development-Tools linting orchestrator
(`scripts/lint-all.js`) against its specification.

The JavaScript orchestrator is shallowly embedded below.  Pure pieces of the
program (flag parsing, the repository configuration table, the dispatch loop,
result aggregation) become Lean functions; the effectful boundary (the file
system listing of the workspace and the execution of an external script) is
abstracted as explicit inputs: a list of `WorkspaceItem`s standing for
`fs.readdirSync`, and an `ExecEnv` giving, for every possible invocation, both
whether the wrapper script file exists (`fs.existsSync`) and the exit status of
running it (`execSync`, which throws on non-zero exit; the `try`/`catch` in
`runScript` converts that into an ordinary `false` result).

Observable behaviour is modelled as data: every `console.log` call made through
`PyrrhaLinter.log` becomes a `LogMsg` carrying its interpolated values and its
colour/type tag, and every `execSync` call becomes an `Invocation` recording
the working directory of the command, the environment variables the orchestrator
adds on top of the ambient `process.env`, and the argument list.
-/

set_option autoImplicit false

namespace PyrrhaDevTools

/-- Boolean leading-segment test on character lists, used to model the JavaScript
`String.prototype.startsWith` method by structural recursion (so that concrete runs
reduce inside the kernel). -/
def charsBegin : List Char → List Char → Bool
  | [], _ => true
  | _ :: _, [] => false
  | a :: as, b :: bs => a == b && charsBegin as bs

/-- `strStartsWith s p` models JavaScript `s.startsWith(p)`. -/
def strStartsWith (s p : String) : Bool :=
  charsBegin p.data s.data

/-- Helper for `splitOnChar`: walks the character list accumulating the current
segment (in reverse). -/
def splitOnCharAux (sep : Char) : List Char → List Char → List String
  | [], acc => [String.mk acc.reverse]
  | c :: rest, acc =>
    if c == sep then String.mk acc.reverse :: splitOnCharAux sep rest []
    else splitOnCharAux sep rest (c :: acc)

/-- `splitOnChar s sep` models JavaScript `s.split(sep)` for a single-character
separator (the orchestrator only splits on `=` and `,`). -/
def splitOnChar (s : String) (sep : Char) : List String :=
  splitOnCharAux sep s.data []

/-- One entry of the `REPO_CONFIGS` table of `lint-all.js` (the value side of
the object literal, lines 19-70). -/
structure RepoConfig where
  type : String
  languages : List String
  hasReact : Bool := false
  hasFlask : Bool := false
  hasNodeAuth : Bool := false
  hasArduino : Bool := false
  scripts : List String
deriving DecidableEq, Repr

/-- The `REPO_CONFIGS` object of `lint-all.js`, key order preserved. -/
def REPO_CONFIGS : List (String × RepoConfig) :=
  [ ("Pyrrha-Dashboard",
      { type := "multi-stack", languages := ["javascript", "python"],
        hasReact := true, hasFlask := true, hasNodeAuth := true,
        scripts := ["lint-dashboard.sh"] }),
    ("Pyrrha-MQTT-Client",
      { type := "nodejs", languages := ["javascript"],
        scripts := ["lint-nodejs.sh"] }),
    ("Pyrrha-Rules-Decision",
      { type := "python", languages := ["python"],
        scripts := ["lint-python.sh"] }),
    ("Pyrrha-WebSocket-Server",
      { type := "nodejs", languages := ["javascript"],
        scripts := ["lint-nodejs.sh"] }),
    ("Pyrrha-Device-Simulator",
      { type := "nodejs", languages := ["javascript"],
        scripts := ["lint-nodejs.sh"] }),
    ("Pyrrha-Website",
      { type := "react", languages := ["javascript"], hasReact := true,
        scripts := ["lint-nodejs.sh"] }),
    ("Pyrrha-Firmware",
      { type := "cpp-arduino", languages := ["cpp", "c"], hasArduino := true,
        scripts := ["lint-cpp.sh"] }),
    ("Pyrrha-Mobile-App",
      { type := "java-android", languages := ["java"],
        scripts := [] }),
    ("Pyrrha-Watch-App",
      { type := "web-hybrid", languages := ["javascript"],
        scripts := ["lint-nodejs.sh"] }) ]

/-- `REPO_CONFIGS[name]`: property lookup on the object literal. -/
def lookupConfig (name : String) : Option RepoConfig :=
  REPO_CONFIGS.lookup name

/-- One entry of `fs.readdirSync(workspaceRoot)` together with the
`fs.statSync(...).isDirectory()` answer for it. -/
structure WorkspaceItem where
  name : String
  isDirectory : Bool
deriving DecidableEq, Repr

/-- A repository object pushed by `discoverRepos` (lines 111-115). -/
structure DiscoveredRepo where
  name : String
  path : String
  config : RepoConfig
deriving DecidableEq, Repr

/-- The colour tag passed as the second argument of `PyrrhaLinter.log`. -/
inductive LogLevel where
  | info
  | success
  | warn
  | error
  | header
deriving DecidableEq, Repr

/-- Every `this.log(...)` call site of `lint-all.js`, with its interpolated
values as constructor arguments. -/
inductive LogMsg where
  /-- line 180: the startup banner. -/
  | startupHeader
  /-- line 181: `Mode: FIX` / `Mode: CHECK`. -/
  | modeLine (fixMode : Bool)
  /-- line 117: unknown `Pyrrha-` directory in the workspace. -/
  | unknownRepository (dirName : String)
  /-- line 190: `No repositories found to lint`. -/
  | noReposFound
  /-- line 194: `Found N repositories to lint`. -/
  | foundCount (n : Nat)
  /-- line 196: one bullet per targeted repository. -/
  | repoListing (name ty : String)
  /-- line 163: per-repository header. -/
  | lintingHeader (name : String)
  /-- line 129: the wrapper script file is missing. -/
  | scriptNotFound (scriptPath : String)
  /-- line 133: `Running <script> for <repo>...`. -/
  | runningScript (script repoName : String)
  /-- line 151: script exited 0. -/
  | scriptCompleted (script repoName : String)
  /-- line 154: script exited non-zero (the catch branch). -/
  | scriptFailed (script repoName : String)
  /-- line 174: per-repository PASSED/FAILED roll-up. -/
  | repoResult (name : String) (passed : Bool)
  /-- line 207: the summary banner. -/
  | summaryHeader
  /-- line 211: number of repositories that passed. -/
  | passedCount (n : Nat)
  /-- line 213: number of repositories that failed. -/
  | failedCount (n : Nat)
  /-- line 214: one bullet per failed repository. -/
  | failedRepoLine (name : String)
  /-- line 217: `All repositories passed linting!`. -/
  | allPassedLine
deriving DecidableEq, Repr

/-- The colour tag each call site passes to `log` (its `type` argument). -/
def LogMsg.level : LogMsg → LogLevel
  | .startupHeader => .header
  | .modeLine _ => .info
  | .unknownRepository _ => .warn
  | .noReposFound => .warn
  | .foundCount _ => .info
  | .repoListing _ _ => .info
  | .lintingHeader _ => .header
  | .scriptNotFound _ => .error
  | .runningScript _ _ => .info
  | .scriptCompleted _ _ => .success
  | .scriptFailed _ _ => .error
  | .repoResult _ passed => if passed then .success else .error
  | .summaryHeader => .header
  | .passedCount _ => .success
  | .failedCount _ => .error
  | .failedRepoLine _ => .error
  | .allPassedLine => .success

/-- The fields of the `PyrrhaLinter` class set up by its constructor
(lines 73-79). -/
structure PyrrhaLinter where
  workspaceRoot : String
  toolsRoot : String
  fixMode : Bool
  verbose : Bool
  targetRepos : Option (List String)
deriving DecidableEq, Repr

/-- `parseTargetRepos` (lines 81-87): the first `--repo=` argument, split on
`=` (taking index 1) and then on `,`; `none` means "lint all repos". -/
def parseTargetRepos (argv : List String) : Option (List String) :=
  match argv.find? (fun a => strStartsWith a "--repo=") with
  | some repoArg => some (splitOnChar ((splitOnChar repoArg '=').getD 1 "") ',')
  | none => none

/-- The `PyrrhaLinter` constructor (lines 73-79): `fixMode` and `verbose` are
flag-presence tests on `process.argv`, `targetRepos` comes from
`parseTargetRepos`. -/
def mkLinter (workspaceRoot toolsRoot : String) (argv : List String) : PyrrhaLinter :=
  { workspaceRoot := workspaceRoot
    toolsRoot := toolsRoot
    fixMode := argv.contains "--fix"
    verbose := argv.contains "--verbose" || argv.contains "-v"
    targetRepos := parseTargetRepos argv }

/-- Result of `discoverRepos`: warnings logged plus the repository objects. -/
structure DiscoverOut where
  logs : List LogMsg
  repos : List DiscoveredRepo
deriving DecidableEq, Repr

/-- `discoverRepos` (lines 100-123): keep every directory entry whose name
starts with `Pyrrha-`, is not the tools repository itself, and has an entry in
`REPO_CONFIGS`; warn about the ones that have no config. -/
def discoverRepos (l : PyrrhaLinter) : List WorkspaceItem → DiscoverOut
  | [] => ⟨[], []⟩
  | item :: rest =>
    let more := discoverRepos l rest
    if item.isDirectory && strStartsWith item.name "Pyrrha-" &&
        item.name != "Pyrrha-Development-Tools" then
      match lookupConfig item.name with
      | some config =>
        ⟨more.logs,
          ⟨item.name, l.workspaceRoot ++ "/" ++ item.name, config⟩ :: more.repos⟩
      | none => ⟨LogMsg.unknownRepository item.name :: more.logs, more.repos⟩
    else more

/-- The script path built on line 126: toolsRoot joined with the scripts directory and the script name. -/
def scriptPathOf (l : PyrrhaLinter) (scriptName : String) : String :=
  l.toolsRoot ++ "/scripts/" ++ scriptName

/-- One `execSync` call made by `runScript` (lines 136-149): the script, the
working directory (`cwd: repoPath`), the environment variables the
orchestrator adds on top of `process.env`, and the argument list. -/
structure Invocation where
  scriptName : String
  scriptPath : String
  repoName : String
  cwd : String
  envVars : List (String × String)
  args : List String
deriving DecidableEq, Repr

/-- The `Invocation` that `runScript` performs when the script file exists:
`env` adds `REPO_PATH`, `REPO_NAME` and `TOOLS_ROOT` (lines 137-142), and the
argument list holds the fix flag exactly in fix mode (line 136). -/
def mkInvocation (l : PyrrhaLinter) (scriptName repoPath repoName : String) : Invocation :=
  { scriptName := scriptName
    scriptPath := scriptPathOf l scriptName
    repoName := repoName
    cwd := repoPath
    envVars := [("REPO_PATH", repoPath), ("REPO_NAME", repoName),
                ("TOOLS_ROOT", l.toolsRoot)]
    args := if l.fixMode then ["--fix"] else [] }

/-- The effectful boundary: which wrapper script files exist
(`fs.existsSync`, line 128) and the exit status `execSync` observes for a
given invocation (non-zero makes `execSync` throw, which `runScript`
catches). -/
structure ExecEnv where
  scriptExists : String → Bool
  exitStatus : Invocation → Nat

/-- What one `runScript` call produced: its log lines, the `execSync` calls it
made (zero or one), and its boolean return value. -/
structure ScriptRun where
  logs : List LogMsg
  invocations : List Invocation
  success : Bool
deriving Repr

/-- `runScript` (lines 125-160): missing script file returns `false` without
executing anything; otherwise the script is executed and the `try`/`catch`
turns a non-zero exit into an ordinary `false` return. -/
def runScript (env : ExecEnv) (l : PyrrhaLinter) (scriptName repoPath repoName : String) :
    ScriptRun :=
  if env.scriptExists (scriptPathOf l scriptName) = false then
    ⟨[LogMsg.scriptNotFound (scriptPathOf l scriptName)], [], false⟩
  else
    let inv := mkInvocation l scriptName repoPath repoName
    if env.exitStatus inv == 0 then
      ⟨[LogMsg.runningScript scriptName repoName,
        LogMsg.scriptCompleted scriptName repoName], [inv], true⟩
    else
      ⟨[LogMsg.runningScript scriptName repoName,
        LogMsg.scriptFailed scriptName repoName], [inv], false⟩

/-- One element of the `results` array of `lintRepository` (line 169). -/
structure ScriptResult where
  script : String
  success : Bool
deriving DecidableEq, Repr

/-- The `for (const scriptName of repo.config.scripts)` loop of
`lintRepository` (lines 167-170). -/
structure ScriptsRun where
  logs : List LogMsg
  invocations : List Invocation
  results : List ScriptResult
deriving Repr

/-- The script loop of `lintRepository`: run every script in list order and
push a `{ script, success }` record for each. -/
def lintScripts (env : ExecEnv) (l : PyrrhaLinter) (repo : DiscoveredRepo) :
    List String → ScriptsRun
  | [] => ⟨[], [], []⟩
  | s :: rest =>
    let one := runScript env l s repo.path repo.name
    let more := lintScripts env l repo rest
    ⟨one.logs ++ more.logs, one.invocations ++ more.invocations,
      ⟨s, one.success⟩ :: more.results⟩

/-- What one `lintRepository` call produced. -/
structure RepoRun where
  logs : List LogMsg
  invocations : List Invocation
  results : List ScriptResult
  passed : Bool
deriving Repr

/-- `lintRepository` (lines 162-177): run every configured script, then
`allPassed = results.every(r => r.success)` decides the PASSED/FAILED line and
the return value. -/
def lintRepository (env : ExecEnv) (l : PyrrhaLinter) (repo : DiscoveredRepo) : RepoRun :=
  let sr := lintScripts env l repo repo.config.scripts
  let allPassed := sr.results.all (fun r => r.success)
  ⟨LogMsg.lintingHeader repo.name :: sr.logs ++ [LogMsg.repoResult repo.name allPassed],
    sr.invocations, sr.results, allPassed⟩

/-- One element of the `results` array of `run` (line 203). -/
structure RepoResult where
  repo : String
  success : Bool
deriving DecidableEq, Repr

/-- The `for (const repo of targetedRepos)` loop of `run` (lines 199-204),
also keeping the per-script results (tagged with their repository) that the
inner calls produced. -/
structure ReposRun where
  logs : List LogMsg
  invocations : List Invocation
  scriptResults : List (String × ScriptResult)
  results : List RepoResult
deriving Repr

/-- The repository loop of `run`: lint each targeted repository in order and
push a `{ repo, success }` record for each. -/
def lintRepos (env : ExecEnv) (l : PyrrhaLinter) : List DiscoveredRepo → ReposRun
  | [] => ⟨[], [], [], []⟩
  | repo :: rest =>
    let rr := lintRepository env l repo
    let more := lintRepos env l rest
    ⟨rr.logs ++ more.logs, rr.invocations ++ more.invocations,
      rr.results.map (fun s => (repo.name, s)) ++ more.scriptResults,
      ⟨repo.name, rr.passed⟩ :: more.results⟩

/-- The targeted repositories of `run` (lines 185-187): discovered repositories
filtered by the `--repo=` list when one was given. -/
def targetedReposOf (l : PyrrhaLinter) (items : List WorkspaceItem) : List DiscoveredRepo :=
  match l.targetRepos with
  | some targets => (discoverRepos l items).repos.filter (fun r => targets.contains r.name)
  | none => (discoverRepos l items).repos

/-- The summary that `run` aggregates (lines 206-218): `results.length`, the
passing repository names, the failing repository names. -/
structure Summary where
  total : Nat
  passed : List String
  failed : List String
deriving DecidableEq, Repr

/-- Everything one `run` call produced.  `summary` is `none` exactly when the
early `return` of lines 189-192 fired, in which case the summary block of
lines 206-218 never executes.  `exitCode` is the process exit status: `1` from
the `process.exit(1)` of line 215, else `0` from normal termination. -/
structure RunOutput where
  logs : List LogMsg
  invocations : List Invocation
  scriptResults : List (String × ScriptResult)
  results : List RepoResult
  summary : Option Summary
  exitCode : Nat
deriving Repr

/-- `run` (lines 179-219). -/
def runLinter (env : ExecEnv) (l : PyrrhaLinter) (items : List WorkspaceItem) : RunOutput :=
  let d := discoverRepos l items
  let targeted := targetedReposOf l items
  let headLogs := LogMsg.startupHeader :: LogMsg.modeLine l.fixMode :: d.logs
  if targeted.length == 0 then
    ⟨headLogs ++ [LogMsg.noReposFound], [], [], [], none, 0⟩
  else
    let listing := LogMsg.foundCount targeted.length ::
      targeted.map (fun r => LogMsg.repoListing r.name r.config.type)
    let rr := lintRepos env l targeted
    let passed := rr.results.filter (fun r => r.success)
    let failed := rr.results.filter (fun r => !r.success)
    let tailLogs := LogMsg.summaryHeader :: LogMsg.passedCount passed.length ::
      (if failed.length > 0 then
        LogMsg.failedCount failed.length :: failed.map (fun f => LogMsg.failedRepoLine f.repo)
      else [LogMsg.allPassedLine])
    ⟨headLogs ++ listing ++ rr.logs ++ tailLogs, rr.invocations, rr.scriptResults,
      rr.results,
      some ⟨rr.results.length, passed.map (fun r => r.repo), failed.map (fun r => r.repo)⟩,
      if failed.length > 0 then 1 else 0⟩

/-- The whole process (lines 248-257): `--help`/`-h` print usage and exit 0;
otherwise a `PyrrhaLinter` is constructed from `process.argv` and `run`
executes, the process exiting with the status of `run`. -/
structure ProgramOutput where
  usageShown : Bool
  runOutput : Option RunOutput
  exitCode : Nat
deriving Repr

/-- The main execution block of `lint-all.js` (lines 248-257). -/
def lintAllMain (env : ExecEnv) (workspaceRoot toolsRoot : String) (argv : List String)
    (items : List WorkspaceItem) : ProgramOutput :=
  if argv.contains "--help" || argv.contains "-h" then
    ⟨true, none, 0⟩
  else
    let l := mkLinter workspaceRoot toolsRoot argv
    let out := runLinter env l items
    ⟨false, some out, out.exitCode⟩

end PyrrhaDevTools

namespace PyrrhaDevTools

/-- Concrete execution environment in which every wrapper script file exists
and every invocation exits with status 0. -/
def env0 : ExecEnv := ⟨fun _ => true, fun _ => 0⟩

/-- Concrete workspace listing containing just the Dashboard repository
directory. -/
def items0 : List WorkspaceItem := [⟨"Pyrrha-Dashboard", true⟩]

lemma allMap {α β : Type} (f : α → β) (p : β → Bool) (l : List α) :
    (l.map f).all p = l.all (fun a => p (f a)) := by
  induction l with
  | nil => rfl
  | cons a l ih => simp [List.all_cons, ih]

lemma runScript_success (env : ExecEnv) (l : PyrrhaLinter) (s p n : String) :
    (runScript env l s p n).success =
      (env.scriptExists (scriptPathOf l s) &&
        (env.exitStatus (mkInvocation l s p n) == 0)) := by
  unfold runScript
  cases h : env.scriptExists (scriptPathOf l s) with
  | false => simp [h]
  | true =>
    cases h2 : env.exitStatus (mkInvocation l s p n) == 0 <;> simp [h, h2]

lemma lintScripts_results_scripts (env : ExecEnv) (l : PyrrhaLinter) (repo : DiscoveredRepo) :
    ∀ ss : List String, ((lintScripts env l repo ss).results).map (fun r => r.script) = ss := by
  intro ss
  induction ss with
  | nil => rfl
  | cons s rest ih => simp [lintScripts, ih]

lemma lintRepository_passed_all (env : ExecEnv) (l : PyrrhaLinter) (repo : DiscoveredRepo) :
    (lintRepository env l repo).passed =
      (lintRepository env l repo).results.all (fun r => r.success) := rfl

lemma lintRepos_results_names (env : ExecEnv) (l : PyrrhaLinter) :
    ∀ rs : List DiscoveredRepo,
      ((lintRepos env l rs).results).map (fun r => r.repo) = rs.map (fun r => r.name) := by
  intro rs
  induction rs with
  | nil => rfl
  | cons repo rest ih => simp [lintRepos, ih]

lemma lintRepos_all_eq (env : ExecEnv) (l : PyrrhaLinter) :
    ∀ rs : List DiscoveredRepo,
      ((lintRepos env l rs).scriptResults).all (fun q => q.2.success) =
        ((lintRepos env l rs).results).all (fun r => r.success) := by
  intro rs
  induction rs with
  | nil => rfl
  | cons repo rest ih =>
    simp [lintRepos, lintRepository, List.all_append, allMap, ih]

lemma lintRepos_scriptNames (env : ExecEnv) (l : PyrrhaLinter) :
    ∀ rs : List DiscoveredRepo,
      ((lintRepos env l rs).scriptResults).map (fun q => (q.1, q.2.script)) =
        (rs.map (fun r => r.config.scripts.map (fun s => (r.name, s)))).flatten := by
  intro rs
  induction rs with
  | nil => rfl
  | cons repo rest ih =>
    have h1 : ((lintRepository env l repo).results.map (fun s => (repo.name, s))).map
        (fun q => (q.1, q.2.script)) =
        repo.config.scripts.map (fun s => (repo.name, s)) := by
      rw [List.map_map]
      have h2 : ((lintRepository env l repo).results).map (fun r => r.script) =
          repo.config.scripts := lintScripts_results_scripts env l repo repo.config.scripts
      calc ((lintRepository env l repo).results).map
            ((fun q : String × ScriptResult => (q.1, q.2.script)) ∘ (fun s => (repo.name, s)))
          = ((lintRepository env l repo).results).map
            ((fun t : String => (repo.name, t)) ∘ (fun r : ScriptResult => r.script)) := rfl
        _ = (((lintRepository env l repo).results).map (fun r : ScriptResult => r.script)).map
            (fun t : String => (repo.name, t)) := (List.map_map _ _ _).symm
        _ = repo.config.scripts.map (fun t : String => (repo.name, t)) := by rw [h2]
    simp [lintRepos, List.map_append, ih, h1]

lemma runLinter_results (env : ExecEnv) (l : PyrrhaLinter) (items : List WorkspaceItem) :
    (runLinter env l items).results = (lintRepos env l (targetedReposOf l items)).results := by
  simp only [runLinter]
  split
  next h =>
    have h0 : targetedReposOf l items = [] := List.length_eq_zero.mp (by simpa using h)
    simp [h0, lintRepos]
  next h => rfl

lemma runLinter_scriptResults (env : ExecEnv) (l : PyrrhaLinter) (items : List WorkspaceItem) :
    (runLinter env l items).scriptResults =
      (lintRepos env l (targetedReposOf l items)).scriptResults := by
  simp only [runLinter]
  split
  next h =>
    have h0 : targetedReposOf l items = [] := List.length_eq_zero.mp (by simpa using h)
    simp [h0, lintRepos]
  next h => rfl

lemma runLinter_invocations (env : ExecEnv) (l : PyrrhaLinter) (items : List WorkspaceItem) :
    (runLinter env l items).invocations =
      (lintRepos env l (targetedReposOf l items)).invocations := by
  simp only [runLinter]
  split
  next h =>
    have h0 : targetedReposOf l items = [] := List.length_eq_zero.mp (by simpa using h)
    simp [h0, lintRepos]
  next h => rfl

lemma runLinter_exitCode (env : ExecEnv) (l : PyrrhaLinter) (items : List WorkspaceItem) :
    (runLinter env l items).exitCode =
      if 0 < ((lintRepos env l (targetedReposOf l items)).results.filter
          (fun r => !r.success)).length then 1 else 0 := by
  simp only [runLinter]
  split
  next h =>
    have h0 : targetedReposOf l items = [] := List.length_eq_zero.mp (by simpa using h)
    simp [h0, lintRepos]
  next h => rfl

lemma runScript_invocations_eq (env : ExecEnv) (l : PyrrhaLinter) (s p n : String) :
    ∀ inv ∈ (runScript env l s p n).invocations, inv = mkInvocation l s p n := by
  intro inv hinv
  unfold runScript at hinv
  split at hinv
  · simp at hinv
  · dsimp only at hinv
    split at hinv <;> simpa using hinv

lemma lintScripts_invocations_eq (env : ExecEnv) (l : PyrrhaLinter) (repo : DiscoveredRepo) :
    ∀ (ss : List String), ∀ inv ∈ (lintScripts env l repo ss).invocations,
      ∃ s ∈ ss, inv = mkInvocation l s repo.path repo.name := by
  intro ss
  induction ss with
  | nil => intro inv hinv; simp [lintScripts] at hinv
  | cons s rest ih =>
    intro inv hinv
    simp only [lintScripts, List.mem_append] at hinv
    rcases hinv with hinv | hinv
    · exact ⟨s, List.mem_cons_self s rest,
        runScript_invocations_eq env l s repo.path repo.name inv hinv⟩
    · obtain ⟨s2, hs2, he⟩ := ih inv hinv
      exact ⟨s2, List.mem_cons_of_mem s hs2, he⟩

lemma lintRepos_invocations_eq (env : ExecEnv) (l : PyrrhaLinter) :
    ∀ (rs : List DiscoveredRepo), ∀ inv ∈ (lintRepos env l rs).invocations,
      ∃ repo ∈ rs, ∃ s ∈ repo.config.scripts, inv = mkInvocation l s repo.path repo.name := by
  intro rs
  induction rs with
  | nil => intro inv hinv; simp [lintRepos] at hinv
  | cons repo rest ih =>
    intro inv hinv
    simp only [lintRepos, List.mem_append] at hinv
    rcases hinv with hinv | hinv
    · have hinv2 : inv ∈ (lintScripts env l repo repo.config.scripts).invocations := hinv
      obtain ⟨s, hs, he⟩ := lintScripts_invocations_eq env l repo repo.config.scripts inv hinv2
      exact ⟨repo, List.mem_cons_self repo rest, s, hs, he⟩
    · obtain ⟨repo2, hrepo2, s, hs, he⟩ := ih inv hinv
      exact ⟨repo2, List.mem_cons_of_mem repo hrepo2, s, hs, he⟩

lemma runLinter_invocation_shape (env : ExecEnv) (l : PyrrhaLinter) (items : List WorkspaceItem)
    (inv : Invocation) (hinv : inv ∈ (runLinter env l items).invocations) :
    inv.args = (if l.fixMode then ["--fix"] else []) ∧
    inv.envVars = [("REPO_PATH", inv.cwd), ("REPO_NAME", inv.repoName),
      ("TOOLS_ROOT", l.toolsRoot)] := by
  rw [runLinter_invocations] at hinv
  obtain ⟨repo, _, s, _, he⟩ := lintRepos_invocations_eq env l (targetedReposOf l items) inv hinv
  subst he
  exact ⟨rfl, rfl⟩

lemma discoverRepos_mem (l : PyrrhaLinter) :
    ∀ (items : List WorkspaceItem), ∀ r ∈ (discoverRepos l items).repos,
      ∃ i ∈ items, i.isDirectory = true ∧ i.name = r.name ∧
        strStartsWith r.name "Pyrrha-" = true ∧
        (r.name != "Pyrrha-Development-Tools") = true ∧
        lookupConfig r.name = some r.config := by
  intro items
  induction items with
  | nil => intro r hr; simp [discoverRepos] at hr
  | cons i rest ih =>
    intro r hr
    simp only [discoverRepos] at hr
    by_cases hc : (i.isDirectory && strStartsWith i.name "Pyrrha-" &&
        (i.name != "Pyrrha-Development-Tools")) = true
    · rw [if_pos hc] at hr
      have hc2 : i.isDirectory = true ∧ strStartsWith i.name "Pyrrha-" = true ∧
          (i.name != "Pyrrha-Development-Tools") = true := by
        have hc3 := hc
        simp only [Bool.and_eq_true] at hc3
        exact ⟨hc3.1.1, hc3.1.2, hc3.2⟩
      obtain ⟨hdir, hpre, hne⟩ := hc2
      cases hcfg : lookupConfig i.name with
      | some config =>
        rw [hcfg] at hr
        simp only [List.mem_cons] at hr
        rcases hr with hr | hr
        · subst hr
          exact ⟨i, List.mem_cons_self i rest, hdir, rfl, hpre, hne, hcfg⟩
        · obtain ⟨i2, hi2, hrest⟩ := ih r hr
          exact ⟨i2, List.mem_cons_of_mem i hi2, hrest⟩
      | none =>
        rw [hcfg] at hr
        obtain ⟨i2, hi2, hrest⟩ := ih r hr
        exact ⟨i2, List.mem_cons_of_mem i hi2, hrest⟩
    · rw [if_neg hc] at hr
      obtain ⟨i2, hi2, hrest⟩ := ih r hr
      exact ⟨i2, List.mem_cons_of_mem i hi2, hrest⟩

lemma discoverRepos_names_sublist (l : PyrrhaLinter) :
    ∀ items : List WorkspaceItem,
      ((discoverRepos l items).repos.map (fun r => r.name)).Sublist
        (items.map (fun i => i.name)) := by
  intro items
  induction items with
  | nil => simp [discoverRepos]
  | cons i rest ih =>
    simp only [discoverRepos, List.map_cons]
    by_cases hc : (i.isDirectory && strStartsWith i.name "Pyrrha-" &&
        (i.name != "Pyrrha-Development-Tools")) = true
    · rw [if_pos hc]
      cases hcfg : lookupConfig i.name with
      | some config => simpa using List.Sublist.cons₂ i.name ih
      | none => exact List.Sublist.cons i.name ih
    · rw [if_neg hc]
      exact List.Sublist.cons i.name ih

lemma targetedReposOf_mem (l : PyrrhaLinter) (items : List WorkspaceItem)
    (r : DiscoveredRepo) (hr : r ∈ targetedReposOf l items) :
    r ∈ (discoverRepos l items).repos := by
  unfold targetedReposOf at hr
  cases htr : l.targetRepos with
  | none => rw [htr] at hr; exact hr
  | some T => rw [htr] at hr; exact (List.mem_filter.mp hr).1

lemma targetedReposOf_names_sublist (l : PyrrhaLinter) (items : List WorkspaceItem) :
    ((targetedReposOf l items).map (fun r => r.name)).Sublist
      (items.map (fun i => i.name)) := by
  have h1 : (targetedReposOf l items).Sublist (discoverRepos l items).repos := by
    unfold targetedReposOf
    cases l.targetRepos with
    | none => exact List.Sublist.refl _
    | some T => exact List.filter_sublist _
  exact (h1.map (fun r => r.name)).trans (discoverRepos_names_sublist l items)

lemma runScript_set_targets (env : ExecEnv) (l : PyrrhaLinter) (x : Option (List String))
    (s p n : String) :
    runScript env { l with targetRepos := x } s p n = runScript env l s p n := rfl

lemma lintScripts_set_targets (env : ExecEnv) (l : PyrrhaLinter) (x : Option (List String))
    (repo : DiscoveredRepo) :
    ∀ ss : List String,
      lintScripts env { l with targetRepos := x } repo ss = lintScripts env l repo ss := by
  intro ss
  induction ss with
  | nil => rfl
  | cons s rest ih => simp only [lintScripts, ih, runScript_set_targets]

lemma lintRepository_set_targets (env : ExecEnv) (l : PyrrhaLinter) (x : Option (List String))
    (repo : DiscoveredRepo) :
    lintRepository env { l with targetRepos := x } repo = lintRepository env l repo := by
  simp only [lintRepository, lintScripts_set_targets]

lemma lintRepos_set_targets (env : ExecEnv) (l : PyrrhaLinter) (x : Option (List String)) :
    ∀ rs : List DiscoveredRepo,
      lintRepos env { l with targetRepos := x } rs = lintRepos env l rs := by
  intro rs
  induction rs with
  | nil => rfl
  | cons repo rest ih => simp only [lintRepos, ih, lintRepository_set_targets]

lemma discoverRepos_set_targets (l : PyrrhaLinter) (x : Option (List String)) :
    ∀ items : List WorkspaceItem,
      discoverRepos { l with targetRepos := x } items = discoverRepos l items := by
  intro items
  induction items with
  | nil => rfl
  | cons i rest ih => simp only [discoverRepos, ih]

lemma targetedReposOf_set_targets (l : PyrrhaLinter) (items : List WorkspaceItem)
    (T : List String) :
    targetedReposOf { l with targetRepos := some T } items =
      (discoverRepos l items).repos.filter (fun r => T.contains r.name) := by
  simp only [targetedReposOf, discoverRepos_set_targets]

lemma runLinter_set_targets_congr (env : ExecEnv) (l : PyrrhaLinter)
    (items : List WorkspaceItem) (x y : Option (List String))
    (h : targetedReposOf { l with targetRepos := x } items =
      targetedReposOf { l with targetRepos := y } items) :
    runLinter env { l with targetRepos := x } items =
      runLinter env { l with targetRepos := y } items := by
  simp only [runLinter, h, discoverRepos_set_targets, lintRepos_set_targets]

lemma contains_filter_ne (name : String) :
    ∀ (T : List String) (a : String), a ≠ name →
      (T.filter (fun t => t != name)).contains a = T.contains a := by
  intro T
  induction T with
  | nil => intro a ha; rfl
  | cons t rest ih =>
    intro a ha
    by_cases ht : t = name
    · have h1 : (t != name) = false := by simp [ht]
      have h2 : (a == t) = false := by
        rw [ht]; exact beq_eq_false_iff_ne.mpr ha
      rw [List.filter_cons, if_neg (by simp [h1]), ih a ha, List.contains_cons, h2,
        Bool.false_or]
    · have h1 : (t != name) = true := by simp [ht]
      rw [List.filter_cons, if_pos h1, List.contains_cons, List.contains_cons, ih a ha]

/-- Modelled from the spec (section 6, CLI surface): the set of flags the
specification lists as recognized — `--fix`, `--verbose`, `-v`, `--help`,
`-h` and the `--repo=<...>` form.  The source itself has no such predicate:
this definition exists only to state claims about "unknown flags". -/
def specRecognizedFlag (a : String) : Bool :=
  a == "--fix" || a == "--verbose" || a == "-v" || a == "--help" || a == "-h" ||
    strStartsWith a "--repo="

lemma contains_append_ne (l : List String) (f a : String) (hfa : f ≠ a) :
    (l ++ [f]).contains a = l.contains a := by
  have ha : (a == f) = false := beq_eq_false_iff_ne.mpr (Ne.symm hfa)
  induction l with
  | nil => simp [List.contains_cons, ha, Ne.symm hfa]
  | cons b rest ih =>
    simp only [List.cons_append, List.contains_cons, ih]

lemma find?_append_single_not (l : List String) (p : String → Bool) (f : String)
    (hf : p f = false) :
    (l ++ [f]).find? p = l.find? p := by
  rw [List.find?_append]
  have h1 : List.find? p [f] = none := by
    rw [List.find?_cons, hf, List.find?_nil]
  rw [h1, Option.or_none]

lemma parseTargetRepos_append (argv : List String) (f : String)
    (hf : strStartsWith f "--repo=" = false) :
    parseTargetRepos (argv ++ [f]) = parseTargetRepos argv := by
  unfold parseTargetRepos
  rw [find?_append_single_not argv (fun a => strStartsWith a "--repo=") f hf]

lemma specRecognizedFlag_parts (f : String) (hf : specRecognizedFlag f = false) :
    f ≠ "--fix" ∧ f ≠ "--verbose" ∧ f ≠ "-v" ∧ f ≠ "--help" ∧ f ≠ "-h" ∧
      strStartsWith f "--repo=" = false := by
  simp only [specRecognizedFlag, Bool.or_eq_false_iff] at hf
  obtain ⟨⟨⟨⟨⟨h1, h2⟩, h3⟩, h4⟩, h5⟩, h6⟩ := hf
  exact ⟨beq_eq_false_iff_ne.mp h1, beq_eq_false_iff_ne.mp h2, beq_eq_false_iff_ne.mp h3,
    beq_eq_false_iff_ne.mp h4, beq_eq_false_iff_ne.mp h5, h6⟩

lemma mkLinter_append_unknown (w t : String) (argv : List String) (f : String)
    (hf : specRecognizedFlag f = false) :
    mkLinter w t (argv ++ [f]) = mkLinter w t argv := by
  obtain ⟨h1, h2, h3, _, _, h6⟩ := specRecognizedFlag_parts f hf
  unfold mkLinter
  rw [contains_append_ne argv f "--fix" h1, contains_append_ne argv f "--verbose" h2,
    contains_append_ne argv f "-v" h3, parseTargetRepos_append argv f h6]

/-- C1: for every run of the orchestrator, the process exit code is 0 if and
only if every script invocation (every recorded per-script RunResult) across
every targeted repository succeeded; if any invocation failed the exit code
is 1.  Stated as an equation covering both the early-return branch (no
targets, hence no invocations, exit 0) and the summary branch. -/
theorem exit_code_zero_iff_all_invocations_succeed (env : ExecEnv) (l : PyrrhaLinter)
    (items : List WorkspaceItem) :
    (runLinter env l items).exitCode =
      if (runLinter env l items).scriptResults.all (fun q => q.2.success) then 0 else 1 := by
  rw [runLinter_exitCode, runLinter_scriptResults, lintRepos_all_eq]
  by_cases hall :
    (lintRepos env l (targetedReposOf l items)).results.all (fun r => r.success) = true
  · rw [hall]
    have hfil : (lintRepos env l (targetedReposOf l items)).results.filter
        (fun r => !r.success) = [] := by
      rw [List.filter_eq_nil_iff]
      intro a ha
      have h2 := List.all_eq_true.mp hall a ha
      simp [h2]
    rw [hfil]
    simp
  · have hfalse : (lintRepos env l (targetedReposOf l items)).results.all
        (fun r => r.success) = false := by
      revert hall
      cases (lintRepos env l (targetedReposOf l items)).results.all (fun r => r.success) <;>
        simp
    rw [hfalse]
    obtain ⟨a, ha, hpa⟩ := List.all_eq_false.mp hfalse
    have ha2 : (!a.success) = true := by
      revert hpa
      cases a.success <;> simp
    have hmem : a ∈ (lintRepos env l (targetedReposOf l items)).results.filter
        (fun r => !r.success) := List.mem_filter.mpr ⟨ha, ha2⟩
    have hlen : 0 < ((lintRepos env l (targetedReposOf l items)).results.filter
        (fun r => !r.success)).length :=
      List.length_pos.mpr (List.ne_nil_of_mem hmem)
    simp [hlen]

/-- C2: for every targeted repository, every script of its dispatch list gets
exactly one recorded per-script result, in list order (so there is no early
termination within the list, even when some invocation fails), and the
repository is reported Passed exactly when every recorded invocation
succeeded.  This holds for all repositories, in particular for one whose list
mixes failing and succeeding invocations. -/
theorem repo_list_fully_executed (env : ExecEnv) (l : PyrrhaLinter) (repo : DiscoveredRepo) :
    ((lintRepository env l repo).results.map (fun r => r.script) = repo.config.scripts) ∧
    ((lintRepository env l repo).passed =
      (lintRepository env l repo).results.all (fun r => r.success)) :=
  ⟨lintScripts_results_scripts env l repo repo.config.scripts, rfl⟩

/-- C7: the script runner never throws: its result is an ordinary boolean that
is `false` both when the script file is missing and when the invocation exits
non-zero (first conjunct); and the orchestrator still runs every remaining
repository (second conjunct: one repository result for every targeted
repository) and every remaining script (third conjunct: the recorded
per-script results are exactly every configured script of every targeted
repository, in order). -/
theorem script_runner_never_throws (env : ExecEnv) (l : PyrrhaLinter) (s p n : String)
    (items : List WorkspaceItem) :
    ((runScript env l s p n).success =
      (env.scriptExists (scriptPathOf l s) &&
        (env.exitStatus (mkInvocation l s p n) == 0))) ∧
    ((runLinter env l items).results.map (fun r => r.repo) =
      (targetedReposOf l items).map (fun r => r.name)) ∧
    ((runLinter env l items).scriptResults.map (fun q => (q.1, q.2.script)) =
      ((targetedReposOf l items).map
        (fun r => r.config.scripts.map (fun t => (r.name, t)))).flatten) := by
  refine ⟨runScript_success env l s p n, ?_, ?_⟩
  · rw [runLinter_results, lintRepos_results_names]
  · rw [runLinter_scriptResults, lintRepos_scriptNames]

/-- C8: in the `REPO_CONFIGS` table, the script list of a repository is empty
exactly when it is the intentionally-unsupported `Pyrrha-Mobile-App` (so every
other known name has a non-empty list), and a repository whose list is empty
executes zero invocations, records zero results and is reported Passed. -/
theorem dispatch_table_nonempty_except_mobile (env : ExecEnv) (l : PyrrhaLinter)
    (repo : DiscoveredRepo) (h : repo.config.scripts = []) :
    (REPO_CONFIGS.all
      (fun kv => kv.2.scripts.isEmpty == (kv.1 == "Pyrrha-Mobile-App")) = true) ∧
    (lintRepository env l repo).invocations = [] ∧
    (lintRepository env l repo).results = [] ∧
    (lintRepository env l repo).passed = true := by
  refine ⟨by decide, ?_, ?_, ?_⟩ <;> simp [lintRepository, h, lintScripts]

/-- Concrete repository object for the intentionally-unsupported Android app,
as `discoverRepos` would build it. -/
def mobileRepo : DiscoveredRepo :=
  ⟨"Pyrrha-Mobile-App", "/ws/Pyrrha-Mobile-App",
    { type := "java-android", languages := ["java"], scripts := [] }⟩

/-- Witness for the C8 theorem at the concrete unsupported repository. -/
theorem dispatch_table_nonempty_except_mobile_witness :
    mobileRepo.config.scripts = [] ∧
    ((REPO_CONFIGS.all
        (fun kv => kv.2.scripts.isEmpty == (kv.1 == "Pyrrha-Mobile-App")) = true) ∧
      (lintRepository env0 (mkLinter "/ws" "/t" []) mobileRepo).invocations = [] ∧
      (lintRepository env0 (mkLinter "/ws" "/t" []) mobileRepo).results = [] ∧
      (lintRepository env0 (mkLinter "/ws" "/t" []) mobileRepo).passed = true) :=
  ⟨rfl, dispatch_table_nonempty_except_mobile env0 (mkLinter "/ws" "/t" []) mobileRepo rfl⟩

/-- C9: the fix/check mode is one boolean, computed once from the presence of
`--fix` on the command line (first conjunct), every invocation of the run
receives exactly the argument list that this single boolean dictates (second
conjunct), and consequently in any single run either every invocation carries
`--fix` or none does (third conjunct). -/
theorem fix_mode_single_boolean (env : ExecEnv) (w t : String) (argv : List String)
    (items : List WorkspaceItem) :
    ((mkLinter w t argv).fixMode = argv.contains "--fix") ∧
    ((runLinter env (mkLinter w t argv) items).invocations.all
      (fun inv => inv.args ==
        (if (mkLinter w t argv).fixMode then ["--fix"] else [])) = true) ∧
    (((runLinter env (mkLinter w t argv) items).invocations.all
        (fun inv => inv.args == ["--fix"]) = true) ∨
      ((runLinter env (mkLinter w t argv) items).invocations.all
        (fun inv => inv.args == []) = true)) := by
  have hall : ∀ (l : PyrrhaLinter), (runLinter env l items).invocations.all
      (fun inv => inv.args == (if l.fixMode then ["--fix"] else [])) = true := by
    intro l
    rw [List.all_eq_true]
    intro inv hinv
    have h1 := (runLinter_invocation_shape env l items inv hinv).1
    simp [h1]
  refine ⟨rfl, hall _, ?_⟩
  cases hfix : (mkLinter w t argv).fixMode with
  | true =>
    left
    have h2 := hall (mkLinter w t argv)
    rw [hfix] at h2
    simpa using h2
  | false =>
    right
    have h2 := hall (mkLinter w t argv)
    rw [hfix] at h2
    simpa using h2

/-- C3 counterexample: with `--repo=Pyrrha-Nope,Pyrrha-Dashboard` in a
workspace containing the Dashboard, the unknown requested name `Pyrrha-Nope`
is not in the known set, the run continues and lints the Dashboard, yet the
log contains no warning-level message at all — in particular no warning for
`Pyrrha-Nope` — contradicting the claim that a warning is reported for the
unknown name. -/
theorem no_warning_for_unknown_requested_name :
    (mkLinter "/ws" "/t"
      ["node", "lint-all.js", "--repo=Pyrrha-Nope,Pyrrha-Dashboard"]).targetRepos =
      some ["Pyrrha-Nope", "Pyrrha-Dashboard"] ∧
    lookupConfig "Pyrrha-Nope" = none ∧
    ((runLinter env0 (mkLinter "/ws" "/t"
        ["node", "lint-all.js", "--repo=Pyrrha-Nope,Pyrrha-Dashboard"]) items0).logs.filter
      (fun m => m.level == LogLevel.warn) = []) ∧
    (runLinter env0 (mkLinter "/ws" "/t"
        ["node", "lint-all.js", "--repo=Pyrrha-Nope,Pyrrha-Dashboard"]) items0).results =
      [⟨"Pyrrha-Dashboard", true⟩] := by
  decide

/-- C3 as amended: an explicitly requested repository name that is not in the
known set is silently dropped — the run does not abort and produces exactly
the output it would produce had the name never been requested (no warning for
that name exists, since the logs of the two runs are equal and the dropped list does
not contain the name). -/
theorem unknown_target_name_silently_dropped (env : ExecEnv) (l : PyrrhaLinter)
    (items : List WorkspaceItem) (targets : List String) (name : String)
    (h : lookupConfig name = none) :
    runLinter env { l with targetRepos := some targets } items =
      runLinter env { l with
        targetRepos := some (targets.filter (fun t2 => t2 != name)) } items := by
  refine runLinter_set_targets_congr env l items (some targets)
    (some (targets.filter (fun t2 => t2 != name))) ?_
  rw [targetedReposOf_set_targets, targetedReposOf_set_targets]
  apply List.filter_congr
  intro r hr
  obtain ⟨i, hi, hdir, hname, hpre, hne, hcfg⟩ := discoverRepos_mem l items r hr
  have hrne : r.name ≠ name := by
    intro he
    rw [he, h] at hcfg
    exact Option.noConfusion hcfg
  exact (contains_filter_ne name targets r.name hrne).symm

/-- Witness for the amended C3 theorem at a concrete unknown name. -/
theorem unknown_target_name_silently_dropped_witness :
    lookupConfig "Pyrrha-Nope" = none ∧
    runLinter env0 { mkLinter "/ws" "/t" [] with
        targetRepos := some ["Pyrrha-Nope", "Pyrrha-Dashboard"] } items0 =
      runLinter env0 { mkLinter "/ws" "/t" [] with
        targetRepos := some ((["Pyrrha-Nope", "Pyrrha-Dashboard"] : List String).filter
          (fun t2 => t2 != "Pyrrha-Nope")) } items0 :=
  ⟨by decide, unknown_target_name_silently_dropped env0 (mkLinter "/ws" "/t" []) items0
    ["Pyrrha-Nope", "Pyrrha-Dashboard"] "Pyrrha-Nope" (by decide)⟩

/-- C4 counterexample: running with `--repo=Unknown` (not in the known set)
yields the warning, an empty target list, zero invocations and exit code 0 —
but no Summary at all: the run returns before the summary block, so `summary`
is `none` and no summary banner is logged, contradicting the claimed
`Summary` with total 0. -/
theorem all_unknown_targets_counterexample :
    (mkLinter "/ws" "/t" ["node", "lint-all.js", "--repo=Unknown"]).targetRepos =
      some ["Unknown"] ∧
    lookupConfig "Unknown" = none ∧
    LogMsg.noReposFound ∈ (runLinter env0 (mkLinter "/ws" "/t"
      ["node", "lint-all.js", "--repo=Unknown"]) items0).logs ∧
    (runLinter env0 (mkLinter "/ws" "/t"
      ["node", "lint-all.js", "--repo=Unknown"]) items0).invocations = [] ∧
    (runLinter env0 (mkLinter "/ws" "/t"
      ["node", "lint-all.js", "--repo=Unknown"]) items0).exitCode = 0 ∧
    (runLinter env0 (mkLinter "/ws" "/t"
      ["node", "lint-all.js", "--repo=Unknown"]) items0).summary = none ∧
    LogMsg.summaryHeader ∉ (runLinter env0 (mkLinter "/ws" "/t"
      ["node", "lint-all.js", "--repo=Unknown"]) items0).logs := by
  decide

/-- C4 as amended: when every requested name is outside the known set, the run
logs the `No repositories found to lint` warning, targets nothing, performs
zero invocations, records no results, exits with code 0 — and produces no
Summary (the run returns before aggregation). -/
theorem all_unknown_targets_outcome (env : ExecEnv) (l : PyrrhaLinter)
    (items : List WorkspaceItem) (targets : List String)
    (h : targets.all (fun t2 => (lookupConfig t2).isNone) = true) :
    LogMsg.noReposFound ∈
      (runLinter env { l with targetRepos := some targets } items).logs ∧
    (runLinter env { l with targetRepos := some targets } items).summary = none ∧
    (runLinter env { l with targetRepos := some targets } items).invocations = [] ∧
    (runLinter env { l with targetRepos := some targets } items).scriptResults = [] ∧
    (runLinter env { l with targetRepos := some targets } items).results = [] ∧
    (runLinter env { l with targetRepos := some targets } items).exitCode = 0 := by
  have hT : targetedReposOf { l with targetRepos := some targets } items = [] := by
    rw [targetedReposOf_set_targets, List.filter_eq_nil_iff]
    intro r hr hcont
    rw [List.contains_eq_any_beq] at hcont
    obtain ⟨x, hx, hbeq⟩ := List.any_eq_true.mp hcont
    have hxeq : r.name = x := by simpa using hbeq
    have hnone := List.all_eq_true.mp h x hx
    obtain ⟨i, hi, hdir, hname, hpre, hne, hcfg⟩ := discoverRepos_mem l items r hr
    rw [← hxeq, hcfg] at hnone
    simp at hnone
  refine ⟨?_, ?_, ?_, ?_, ?_, ?_⟩ <;> simp [runLinter, hT]

/-- Witness for the amended C4 theorem at the concrete request `Unknown`. -/
theorem all_unknown_targets_outcome_witness :
    ((["Unknown"] : List String).all (fun t2 => (lookupConfig t2).isNone) = true) ∧
    (LogMsg.noReposFound ∈
      (runLinter env0 { mkLinter "/ws" "/t" [] with
        targetRepos := some ["Unknown"] } items0).logs ∧
    (runLinter env0 { mkLinter "/ws" "/t" [] with
      targetRepos := some ["Unknown"] } items0).summary = none ∧
    (runLinter env0 { mkLinter "/ws" "/t" [] with
      targetRepos := some ["Unknown"] } items0).invocations = [] ∧
    (runLinter env0 { mkLinter "/ws" "/t" [] with
      targetRepos := some ["Unknown"] } items0).scriptResults = [] ∧
    (runLinter env0 { mkLinter "/ws" "/t" [] with
      targetRepos := some ["Unknown"] } items0).results = [] ∧
    (runLinter env0 { mkLinter "/ws" "/t" [] with
      targetRepos := some ["Unknown"] } items0).exitCode = 0) :=
  ⟨by decide, all_unknown_targets_outcome env0 (mkLinter "/ws" "/t" []) items0
    ["Unknown"] (by decide)⟩

/-- C5 counterexample: `--bogus` is outside the recognized flag set, yet the
program does not treat the invocation as misuse — the run proceeds normally
and exits with code 0, not 1. -/
theorem unknown_flag_not_misuse :
    specRecognizedFlag "--bogus" = false ∧
    (lintAllMain env0 "/ws" "/t" ["node", "lint-all.js", "--bogus"] items0).usageShown =
      false ∧
    (lintAllMain env0 "/ws" "/t" ["node", "lint-all.js", "--bogus"] items0).exitCode = 0 := by
  decide

/-- C5 as amended: the program performs no flag validation — appending a flag
outside the recognized set to the command line leaves the entire program
output (usage, run output and exit code) unchanged, so an unknown flag never
causes exit code 1 by itself. -/
theorem unrecognized_flag_ignored (env : ExecEnv) (w t : String) (argv : List String)
    (items : List WorkspaceItem) (f : String) (hf : specRecognizedFlag f = false) :
    lintAllMain env w t (argv ++ [f]) items = lintAllMain env w t argv items := by
  obtain ⟨_, _, _, h4, h5, h6⟩ := specRecognizedFlag_parts f hf
  unfold lintAllMain
  rw [contains_append_ne argv f "--help" h4, contains_append_ne argv f "-h" h5,
    mkLinter_append_unknown w t argv f hf]

/-- Witness for the amended C5 theorem at the concrete flag `--bogus`. -/
theorem unrecognized_flag_ignored_witness :
    specRecognizedFlag "--bogus" = false ∧
    lintAllMain env0 "/ws" "/t" (["node", "lint-all.js"] ++ ["--bogus"]) items0 =
      lintAllMain env0 "/ws" "/t" ["node", "lint-all.js"] items0 :=
  ⟨by decide, unrecognized_flag_ignored env0 "/ws" "/t" ["node", "lint-all.js"] items0
    "--bogus" (by decide)⟩

/-- C6 counterexample: two runs identical except for `--fix` produce
invocations with identical environment variables (and there is an invocation),
so no environment variable conveys the fix/check mode — the mode travels as a
command-line argument instead, contradicting the claim that the environment
carries the fix/check mode flag. -/
theorem fix_mode_absent_from_env_vars :
    (mkLinter "/ws" "/t" ["node", "lint-all.js", "--fix"]).fixMode = true ∧
    (mkLinter "/ws" "/t" ["node", "lint-all.js"]).fixMode = false ∧
    (runLinter env0 (mkLinter "/ws" "/t" ["node", "lint-all.js", "--fix"])
      items0).invocations.length = 1 ∧
    ((runLinter env0 (mkLinter "/ws" "/t" ["node", "lint-all.js", "--fix"])
        items0).invocations.map (fun inv => inv.envVars) =
      (runLinter env0 (mkLinter "/ws" "/t" ["node", "lint-all.js"])
        items0).invocations.map (fun inv => inv.envVars)) ∧
    ((runLinter env0 (mkLinter "/ws" "/t" ["node", "lint-all.js", "--fix"])
        items0).invocations.map (fun inv => inv.args) = [["--fix"]]) := by
  decide

/-- C6 as amended: every external script invocation receives, in its
environment variables, exactly the repository path (`REPO_PATH`, the
working directory of the invocation), the repository name (`REPO_NAME`) and the
tools-root path (`TOOLS_ROOT`); the fix/check mode is not in the environment
but is passed as the `--fix` command-line argument exactly in fix mode. -/
theorem invocation_env_vars (env : ExecEnv) (l : PyrrhaLinter)
    (items : List WorkspaceItem) :
    (runLinter env l items).invocations.all (fun inv =>
      inv.envVars == [("REPO_PATH", inv.cwd), ("REPO_NAME", inv.repoName),
        ("TOOLS_ROOT", l.toolsRoot)] &&
      inv.args == (if l.fixMode then ["--fix"] else [])) = true := by
  rw [List.all_eq_true]
  intro inv hinv
  obtain ⟨h1, h2⟩ := runLinter_invocation_shape env l items inv hinv
  simp [h1, h2]

/-- C10: every linted repository name has an entry in `REPO_CONFIGS`, is an
actually-present directory of the workspace, starts with `Pyrrha-` and is not
`Pyrrha-Development-Tools` (so the linted set is contained in the intersection
of the known names and the present `Pyrrha-` directories), and — the workspace
listing having no duplicate names — each linted repository contributes exactly
one entry to the final results. -/
theorem linted_repos_subset_known_dirs (env : ExecEnv) (l : PyrrhaLinter)
    (items : List WorkspaceItem) (h : (items.map (fun i => i.name)).Nodup) :
    (((runLinter env l items).results.map (fun r => r.repo)).all (fun n2 =>
        (lookupConfig n2).isSome &&
        items.any (fun i => i.isDirectory && i.name == n2) &&
        strStartsWith n2 "Pyrrha-" && (n2 != "Pyrrha-Development-Tools")) = true) ∧
    ((runLinter env l items).results.map (fun r => r.repo)).Nodup := by
  have hre : (runLinter env l items).results.map (fun r => r.repo) =
      (targetedReposOf l items).map (fun r => r.name) := by
    rw [runLinter_results, lintRepos_results_names]
  rw [hre]
  constructor
  · rw [List.all_eq_true]
    intro n2 hn2
    obtain ⟨r, hr, hrn⟩ := List.mem_map.mp hn2
    subst hrn
    have hr2 := targetedReposOf_mem l items r hr
    obtain ⟨i, hi, hdir, hname, hpre, hne, hcfg⟩ := discoverRepos_mem l items r hr2
    have hany : items.any (fun i2 => i2.isDirectory && i2.name == r.name) = true :=
      List.any_eq_true.mpr ⟨i, hi, by rw [hdir, hname]; simp⟩
    simp [hcfg, hany, hpre, hne]
  · exact List.Nodup.sublist (targetedReposOf_names_sublist l items) h

/-- Witness for the C10 theorem at the concrete single-directory workspace. -/
theorem linted_repos_subset_known_dirs_witness :
    ((items0.map (fun i => i.name)).Nodup) ∧
    ((((runLinter env0 (mkLinter "/ws" "/t" []) items0).results.map
        (fun r => r.repo)).all (fun n2 =>
        (lookupConfig n2).isSome &&
        items0.any (fun i => i.isDirectory && i.name == n2) &&
        strStartsWith n2 "Pyrrha-" && (n2 != "Pyrrha-Development-Tools")) = true) ∧
      ((runLinter env0 (mkLinter "/ws" "/t" []) items0).results.map
        (fun r => r.repo)).Nodup) :=
  ⟨by decide, linted_repos_subset_known_dirs env0 (mkLinter "/ws" "/t" []) items0 (by decide)⟩
